import Mathlib

/-!
# Verification of the foodgram recipe backend core

Shallow embedding of the non-trivial logic of the foodgram backend
(`backend/api/views.py`, `backend/api/serializers.py`,
`backend/recipes/models.py`, `backend/users/models.py`):

* the shopping-list aggregation (`RecipeViewSet.download_shopping_cart`),
* the relation-edge managers (`RecipeViewSet.add_recipe`,
  `RecipeViewSet.delete_recipe`, `UserViewSet.subscribe_user`,
  `UserViewSet.unsubscribe_user`),
* recipe create/update validation (`RecipeWriteSerializer`),
* the short-code generator (`Recipe.generate_short_code`),
* the subscriptions listing (`SubscriptionSerializer.get_recipes`).

The relational store is modelled by lists of rows; Django query-set
operations are modelled by the corresponding list operations (a join
against a relation with a uniqueness constraint on the joined columns
is a filter, `values(...).annotate(Sum(...))` is group-by with
summation, `order_by` is a sort).  HTTP responses are modelled by their
status codes.  The randomness consumed by the short-code generator is
modelled by an explicit oracle of draws, and its unbounded `while True`
loop by an explicit fuel parameter.
-/

namespace Foodgram

/-! ## String ordering

SQL `ORDER BY ingredient__name`: lexicographic, case-sensitive
comparison of names.  `leChars` is a structural (hence
kernel-computable) rendering of the lexicographic order on character
lists; `strLe_iff` below identifies it with the library order on
`String`. -/

/-- Lexicographic `≤` on character lists, as a computable Boolean. -/
def leChars : List Char → List Char → Bool
  | [], _ => true
  | _ :: _, [] => false
  | a :: as, b :: bs => if a < b then true else if b < a then false else leChars as bs

/-- Lexicographic, case-sensitive `≤` on strings (the SQL `ORDER BY` order). -/
def strLe (a b : String) : Bool := leChars a.data b.data

/-! ## Data model -/

/-- A row of `recipes.models.Ingredient`: `id`, `name`, `measurement_unit`. -/
structure Ingredient where
  id : Nat
  name : String
  measurement_unit : String
deriving DecidableEq, Repr

/-- A row of `recipes.models.Recipe` (the scalar columns used by the API:
`id`, `author`, `name`, `text`, `cooking_time`, `image`, `short_code`). -/
structure RecipeRow where
  id : Nat
  author : Nat
  name : String
  text : String
  cooking_time : Nat
  image : String
  short_code : String
deriving DecidableEq, Repr

/-- A row of `recipes.models.IngredientInRecipe`: `(recipe, ingredient, amount)`,
unique per `(ingredient, recipe)`. -/
structure IngredientInRecipe where
  recipe : Nat
  ingredient : Nat
  amount : Nat
deriving DecidableEq, Repr

/-- A `(user, recipe)` edge row, the shape shared by `recipes.models.Favorite`
and `recipes.models.ShoppingCart` (abstract base `FavoriteCartModel`). -/
structure CartEntry where
  user : Nat
  recipe : Nat
deriving DecidableEq, Repr

/-- A row of `users.models.Follow`: `user` follows `author`. -/
structure FollowEdge where
  user : Nat
  author : Nat
deriving DecidableEq, Repr

/-- A `(recipe, tag)` association row (the `Recipe.tags` many-to-many table). -/
structure RecipeTag where
  recipe : Nat
  tag : Nat
deriving DecidableEq, Repr

/-- The relational store: one list of rows per table used by the claims. -/
structure Store where
  users : List Nat
  ingredients : List Ingredient
  recipes : List RecipeRow
  ingredient_in_recipe : List IngredientInRecipe
  shopping_cart : List CartEntry
  favorites : List CartEntry
  follows : List FollowEdge
  recipe_tags : List RecipeTag
deriving Repr

/-- HTTP response statuses produced by the handlers under scrutiny. -/
inductive Resp where
  | ok
  | created
  | noContent
  | badRequest
  | notFound
deriving DecidableEq, Repr

/-! ## Shopping-list aggregation (`RecipeViewSet.download_shopping_cart`)

The view runs
`IngredientInRecipe.objects.filter(recipe__shopping_cart__user=user)
 .values("ingredient__name", "ingredient__measurement_unit")
 .order_by("ingredient__name").annotate(total=Sum("amount"))`:
ingredient lines of recipes in the user's cart, grouped by
`(ingredient name, measurement unit)`, amounts summed per group, groups
ordered by ingredient name.  `ShoppingCart` is unique on
`(user, recipe)`, so the join keeps each ingredient line at most once
and is a filter. -/

/-- The ingredient lines reached by the join
`recipe__shopping_cart__user=user`. -/
def cartLines (s : Store) (u : Nat) : List IngredientInRecipe :=
  s.ingredient_in_recipe.filter fun l =>
    s.shopping_cart.any fun e => e.user == u && e.recipe == l.recipe

/-- Resolve a line's `ingredient__name` / `ingredient__measurement_unit`
columns (foreign-key lookup; `Ingredient.id` is the primary key). -/
def lineKeyAmount (s : Store) (l : IngredientInRecipe) :
    Option ((String × String) × Nat) :=
  match s.ingredients.find? (fun i => i.id == l.ingredient) with
  | some i => some ((i.name, i.measurement_unit), l.amount)
  | none => none

/-- The joined rows as `((name, unit), amount)` pairs. -/
def cartKeyedAmounts (s : Store) (u : Nat) : List ((String × String) × Nat) :=
  (cartLines s u).filterMap (lineKeyAmount s)

/-- `Sum("amount")` over one `(name, unit)` group. -/
def sumFor (ls : List ((String × String) × Nat)) (k : String × String) : Nat :=
  (ls.filter fun x => x.1 == k).foldr (fun x acc => x.2 + acc) 0

/-- One aggregated output row for the group keyed `k = (name, unit)`:
`(name, total, unit)`. -/
def mkRow (ls : List ((String × String) × Nat)) (k : String × String) :
    String × Nat × String :=
  (k.1, sumFor ls k, k.2)

/-- `ORDER BY ingredient__name`: compare rows by their name column. -/
def rowLe (a b : String × Nat × String) : Prop := strLe a.1 b.1 = true

instance : DecidableRel rowLe := fun a b => instDecidableEqBool (strLe a.1 b.1) true

/-- The aggregated query-set rows: one `(name, total, unit)` row per
distinct `(name, unit)` group, ordered by `ingredient__name` ascending. -/
def download_rows (s : Store) (u : Nat) : List (String × Nat × String) :=
  let ls := cartKeyedAmounts s u
  List.insertionSort rowLe (((ls.map fun x => x.1).dedup).map (mkRow ls))

/-- The produced text document: the header line followed by one
`"{name} - {total} ({unit})\n"` line per aggregated row. -/
def download_shopping_cart (s : Store) (u : Nat) : List String :=
  "Список покупок\n" ::
    (download_rows s u).map fun r =>
      r.1 ++ " - " ++ toString r.2.1 ++ " (" ++ r.2.2 ++ ")\n"

/-- The `(name, unit)` group key of an output row. -/
def rowKey (r : String × Nat × String) : String × String := (r.1, r.2.2)

/-- The spec's worked example: user 1's cart holds recipe A
(flour: 200 g) and recipe B (flour: 100 g, sugar: 50 g). -/
def exampleCartStore : Store where
  users := [1, 2]
  ingredients := [⟨1, "flour", "g"⟩, ⟨2, "sugar", "g"⟩]
  recipes := [⟨1, 2, "A", "", 5, "img", "aaaaaa"⟩, ⟨2, 2, "B", "", 5, "img", "bbbbbb"⟩]
  ingredient_in_recipe := [⟨1, 1, 200⟩, ⟨2, 1, 100⟩, ⟨2, 2, 50⟩]
  shopping_cart := [⟨1, 1⟩, ⟨1, 2⟩]
  favorites := []
  follows := []
  recipe_tags := []

/-- A store in which user 1's cart is empty. -/
def emptyCartStore : Store where
  users := [1]
  ingredients := [⟨1, "flour", "g"⟩]
  recipes := [⟨1, 1, "A", "", 5, "img", "aaaaaa"⟩]
  ingredient_in_recipe := [⟨1, 1, 200⟩]
  shopping_cart := []
  favorites := []
  follows := []
  recipe_tags := []

/-! ## Relation-edge managers

`RecipeViewSet.add_recipe` / `RecipeViewSet.delete_recipe` are shared by
the `favorite` and `shopping_cart` actions (the `model` argument picks
the edge table); `UserViewSet.subscribe_user` / `unsubscribe_user`
manage `Follow`.  `edit_subscriptions` resolves the author with
`get_object_or_404(User, pk=pk)` before delegating. -/

/-- `RecipeViewSet.add_recipe(model, user, pk)`: reject with 400 if the
`(user, recipe)` edge already exists, 404 if the recipe does not exist,
otherwise create the edge and answer 201. -/
def add_recipe (recipes : List RecipeRow) (edges : List CartEntry) (u pk : Nat) :
    Resp × List CartEntry :=
  if edges.any fun e => e.user == u && e.recipe == pk then
    (.badRequest, edges)
  else if recipes.any fun r => r.id == pk then
    (.created, ⟨u, pk⟩ :: edges)
  else
    (.notFound, edges)

/-- `RecipeViewSet.delete_recipe(model, user, pk)`: 404 if the recipe does
not exist (`get_object_or_404`); then `filter(user=user, recipe=recipe).delete()`
and 400 (`'Рецепт не найден!'`) if nothing was deleted, 204 otherwise. -/
def delete_recipe (recipes : List RecipeRow) (edges : List CartEntry) (u pk : Nat) :
    Resp × List CartEntry :=
  if recipes.any fun r => r.id == pk then
    let deleted := edges.countP fun e => e.user == u && e.recipe == pk
    if deleted == 0 then
      (.badRequest, edges)
    else
      (.noContent, edges.filter fun e => !(e.user == u && e.recipe == pk))
  else
    (.notFound, edges)

/-- `UserViewSet.subscribe_user(user, author)`: 400 on self-follow, then
`Follow.objects.get_or_create`; 400 if the edge already existed, 201
otherwise. -/
def subscribe_user (follows : List FollowEdge) (u a : Nat) :
    Resp × List FollowEdge :=
  if u == a then
    (.badRequest, follows)
  else if follows.any fun e => e.user == u && e.author == a then
    (.badRequest, follows)
  else
    (.created, ⟨u, a⟩ :: follows)

/-- `UserViewSet.unsubscribe_user(user, author)` as reached through
`edit_subscriptions` (404 if the author id does not exist); deletes the
`Follow` edge and answers 204 if it exists, 400 otherwise. -/
def unsubscribe_user (users : List Nat) (follows : List FollowEdge) (u a : Nat) :
    Resp × List FollowEdge :=
  if users.any fun x => x == a then
    if follows.any fun e => e.user == u && e.author == a then
      (.noContent, follows.filter fun e => !(e.user == u && e.author == a))
    else
      (.badRequest, follows)
  else
    (.notFound, follows)

/-- The `Follow` states reachable from the empty table through the two
subscription handlers. -/
inductive FollowReachable : List FollowEdge → Prop where
  | init : FollowReachable []
  | subscribe (u a : Nat) (fs : List FollowEdge) :
      FollowReachable fs → FollowReachable (subscribe_user fs u a).2
  | unsubscribe (users : List Nat) (u a : Nat) (fs : List FollowEdge) :
      FollowReachable fs → FollowReachable (unsubscribe_user users fs u a).2

/-! ## Recipe aggregate writer (`RecipeWriteSerializer`) -/

/-- One entry of the write payload's `ingredients` list:
`{id: <ingredient pk>, amount: <n>}`. -/
structure IngredientRef where
  id : Nat
  amount : Nat
deriving DecidableEq, Repr

/-- The validated create payload of `RecipeWriteSerializer`. -/
structure RecipePayload where
  tags : List Nat
  ingredients : List IngredientRef
  name : String
  text : String
  image : String
  cooking_time : Nat
deriving DecidableEq, Repr

/-- `RecipeWriteSerializer.validate_ingredients`: the ingredient ids must
be pairwise distinct (`len(ids) != len(set(ids))` rejects). -/
def validate_ingredients (value : List IngredientRef) :
    Except String (List IngredientRef) :=
  let ingredient_ids := value.map fun item => item.id
  if ingredient_ids.length ≠ ingredient_ids.dedup.length then
    .error "Ингредиенты должны быть уникальными."
  else
    .ok value

/-- `RecipeWriteSerializer.validate_tags`: the tags must be pairwise
distinct. -/
def validate_tags (value : List Nat) : Except String (List Nat) :=
  if value.length ≠ value.dedup.length then
    .error "Теги должны быть уникальными."
  else
    .ok value

/-- `RecipeWriteSerializer.validate_image`: a falsy image payload is
rejected (the empty string models the absent/empty upload). -/
def validate_image (value : String) : Except String String :=
  if value = "" then .error "Изображение является обязательным." else .ok value

/-- The full validation pipeline on a create payload: the field-level
validators, then the object-level `validate` (at least one ingredient,
at least one tag). -/
def validateRecipePayload (p : RecipePayload) : Except String RecipePayload :=
  match validate_ingredients p.ingredients with
  | .error e => .error e
  | .ok _ =>
    match validate_tags p.tags with
    | .error e => .error e
    | .ok _ =>
      match validate_image p.image with
      | .error e => .error e
      | .ok _ =>
        if p.ingredients.isEmpty then
          .error "Нужен хотя бы один ингредиент!"
        else if p.tags.isEmpty then
          .error "Нужно выбрать хотя бы один тег!"
        else
          .ok p

/-- `RecipeWriteSerializer.create_tags_ingredients(recipe, tags, ingredients)`:
`recipe.tags.set(tags_data)` (replace the recipe's tag associations) and
`IngredientInRecipe.objects.bulk_create(...)`. -/
def create_tags_ingredients (s : Store) (rid : Nat) (tags_data : List Nat)
    (ingredients_data : List IngredientRef) : Store :=
  { s with
    recipe_tags :=
      (s.recipe_tags.filter fun t => !(t.recipe == rid)) ++
        tags_data.map fun t => ⟨rid, t⟩,
    ingredient_in_recipe :=
      s.ingredient_in_recipe ++
        ingredients_data.map fun i => ⟨rid, i.id, i.amount⟩ }

/-- `RecipeWriteSerializer.create` guarded by the validators: on success
inserts the recipe row (with the assigned `short_code`) and its
collections inside one transaction; on validation failure nothing is
persisted. -/
def recipe_create (s : Store) (author : Nat) (p : RecipePayload) (newId : Nat)
    (code : String) : Except String Store :=
  match validateRecipePayload p with
  | .error e => .error e
  | .ok _ =>
    let s1 := { s with recipes :=
      ⟨newId, author, p.name, p.text, p.cooking_time, p.image, code⟩ :: s.recipes }
    .ok (create_tags_ingredients s1 newId p.tags p.ingredients)

/-- The store observed after a create request: unchanged when validation
fails (the transaction rolls back / nothing was written). -/
def runCreate (s : Store) (author : Nat) (p : RecipePayload) (newId : Nat)
    (code : String) : Store :=
  match recipe_create s author p newId code with
  | .ok s' => s'
  | .error _ => s

/-- The fields of `RecipeReadSerializer` relevant to round-tripping:
scalars, tag ids, and `(ingredient, amount)` lines. -/
structure RecipeView where
  name : String
  text : String
  cooking_time : Nat
  image : String
  tags : List Nat
  ingredients : List (Nat × Nat)
deriving DecidableEq, Repr

/-- `RecipeReadSerializer` on one recipe id: its scalar columns, its tag
associations and its ingredient lines. -/
def readRecipe (s : Store) (rid : Nat) : Option RecipeView :=
  match s.recipes.find? fun r => r.id == rid with
  | none => none
  | some r =>
    some
      { name := r.name
        text := r.text
        cooking_time := r.cooking_time
        image := r.image
        tags := (s.recipe_tags.filter fun t => t.recipe == rid).map fun t => t.tag
        ingredients :=
          (s.ingredient_in_recipe.filter fun l => l.recipe == rid).map fun l =>
            (l.ingredient, l.amount) }

/-- An update payload: scalar fields and collections are each optional
(`partial_update` sends only some of them). -/
structure UpdatePayload where
  tags : Option (List Nat)
  ingredients : Option (List IngredientRef)
  name : Option String
  text : Option String
  image : Option String
  cooking_time : Option Nat
deriving DecidableEq, Repr

/-- The validation pipeline on an update payload: field-level validators
run on the supplied fields, then the object-level `validate`, whose
`value.get('ingredient_in_recipe')` / `value.get('tags')` checks reject
a missing as well as an empty collection. -/
def validateUpdatePayload (p : UpdatePayload) : Except String UpdatePayload :=
  match
    (match p.ingredients with
     | some v => validate_ingredients v
     | none => .ok []) with
  | .error e => .error e
  | .ok _ =>
    match
      (match p.tags with
       | some v => validate_tags v
       | none => .ok []) with
    | .error e => .error e
    | .ok _ =>
      match
        (match p.image with
         | some v => validate_image v
         | none => .ok "") with
      | .error e => .error e
      | .ok _ =>
        if (p.ingredients.getD []).isEmpty then
          .error "Нужен хотя бы один ингредиент!"
        else if (p.tags.getD []).isEmpty then
          .error "Нужно выбрать хотя бы один тег!"
        else
          .ok p

/-- `RecipeWriteSerializer.update`: `instance.ingredients.clear()`,
`instance.tags.clear()`, `create_tags_ingredients`, then the scalar
fields supplied in the payload replace the stored ones. -/
def recipe_update_apply (s : Store) (rid : Nat) (p : UpdatePayload) : Store :=
  let ingredients_data := p.ingredients.getD []
  let tags_data := p.tags.getD []
  let s1 := { s with
    ingredient_in_recipe := s.ingredient_in_recipe.filter fun l => !(l.recipe == rid),
    recipe_tags := s.recipe_tags.filter fun t => !(t.recipe == rid) }
  let s2 := create_tags_ingredients s1 rid tags_data ingredients_data
  { s2 with recipes := s2.recipes.map fun r =>
      if r.id == rid then
        { r with
          name := p.name.getD r.name
          text := p.text.getD r.text
          image := p.image.getD r.image
          cooking_time := p.cooking_time.getD r.cooking_time }
      else r }

/-- `RecipeWriteSerializer.update` guarded by the validators. -/
def recipe_update (s : Store) (rid : Nat) (p : UpdatePayload) :
    Except String Store :=
  match validateUpdatePayload p with
  | .error e => .error e
  | .ok _ => .ok (recipe_update_apply s rid p)

/-- The store observed after an update request: unchanged when validation
fails. -/
def runUpdate (s : Store) (rid : Nat) (p : UpdatePayload) : Store :=
  match recipe_update s rid p with
  | .ok s' => s'
  | .error _ => s

/-! ## Short-code generator (`Recipe.generate_short_code`)

`characters = string.ascii_lowercase + string.digits`;
`random.choices(characters, k=MAX_CODE_LENGTH)` draws
`MAX_CODE_LENGTH` independent indexes into `characters`, so a draw is a
function `Fin MAX_CODE_LENGTH → Fin 36` supplied by an oracle; the
`while True` loop redraws while the drawn code already exists and is
given an explicit fuel parameter. -/

/-- Modelled from the spec: `recipes/constants.py` is not among the
sources; the spec fixes the short code as a fixed-length (e.g.
6-character) string, so `MAX_CODE_LENGTH = 6`. -/
def MAX_CODE_LENGTH : Nat := 6

/-- `string.ascii_lowercase + string.digits`. -/
def characters : List Char := "abcdefghijklmnopqrstuvwxyz0123456789".data

/-- One invocation of `random.choices(characters, k=MAX_CODE_LENGTH)`:
an index into `characters` for each of the `MAX_CODE_LENGTH` positions. -/
abbrev Draw : Type := Fin MAX_CODE_LENGTH → Fin 36

/-- The string assembled from one draw
(`''.join(random.choices(characters, k=MAX_CODE_LENGTH))`). -/
def drawString (d : Draw) : String :=
  ⟨(List.finRange MAX_CODE_LENGTH).map fun i => characters.getD (d i).val 'a'⟩

/-- The `while True` loop of `generate_short_code`, with the oracle `ρ`
supplying the `i`-th draw and explicit fuel: draw, keep the code unless
`Recipe.objects.filter(short_code=...).exists()`, otherwise redraw. -/
def genAux (existing : List String) (ρ : Nat → Draw) : Nat → Nat → Option String
  | _, 0 => none
  | i, fuel + 1 =>
    let short_code := drawString (ρ i)
    if existing.any fun c => c == short_code then
      genAux existing ρ (i + 1) fuel
    else
      some short_code

/-- `Recipe.generate_short_code` against the set of codes already in the
store. -/
def generate_short_code (existing : List String) (ρ : Nat → Draw) (fuel : Nat) :
    Option String :=
  genAux existing ρ 0 fuel

/-- `n` sequential recipe creations (`Recipe.save` assigns
`generate_short_code` on first persistence): each creation draws with
its own oracle `ρs k` and its code joins the existing ones. -/
def createCodes (ρs : Nat → Nat → Draw) (fuel : Nat) :
    Nat → List String → Option (List String)
  | 0, existing => some existing
  | n + 1, existing =>
    match generate_short_code existing (ρs n) fuel with
    | none => none
    | some c => createCodes ρs fuel n (c :: existing)

/-- The draw that always picks index 0 (`'a'` at every position). -/
def allA : Draw := fun _ => ⟨0, by decide⟩

/-- The draw that always picks index 1 (`'b'` at every position). -/
def allB : Draw := fun _ => ⟨1, by decide⟩

/-- A concrete oracle for witnesses: the `n`-th creation draws the
letter at index `n % 36` in every position. -/
def exOracle : Nat → Nat → Draw :=
  fun n _ => fun _ => ⟨n % 36, Nat.mod_lt _ (by decide)⟩

/-! ## Subscriptions listing (`SubscriptionSerializer.get_recipes`) -/

/-- Trailing/leading whitespace stripping as `int(str)` performs it. -/
def trimChars (cs : List Char) : List Char :=
  ((cs.dropWhile Char.isWhitespace).reverse.dropWhile Char.isWhitespace).reverse

/-- The numeric value of an ASCII digit. -/
def digitVal (c : Char) : Nat := c.toNat - '0'.toNat

/-- The digit run of a Python integer literal: digits with single
underscores allowed between digits (`prevDigit` tracks whether the
previous character was a digit). -/
def parseDigitRun : Bool → Nat → List Char → Option Nat
  | prevDigit, acc, [] => if prevDigit then some acc else none
  | prevDigit, acc, c :: cs =>
    if c.isDigit then
      parseDigitRun true (10 * acc + digitVal c) cs
    else if c == '_' && prevDigit then
      parseDigitRun false acc cs
    else
      none

/-- Python's `int(str)`: optional surrounding whitespace, optional sign,
then a digit run; `none` models the `ValueError` raised on any other
input. -/
def pyInt (s : String) : Option Int :=
  match trimChars s.data with
  | '+' :: rest => (parseDigitRun false 0 rest).map fun n => (n : Int)
  | '-' :: rest => (parseDigitRun false 0 rest).map fun n => -(n : Int)
  | cs => (parseDigitRun false 0 cs).map fun n => (n : Int)

/-- Python list slicing `l[:n]` (the prefetched recipe list is a
materialised sequence): the first `n` elements for `n ≥ 0`, all but the
last `-n` for `n < 0`. -/
def pySliceTo (n : Int) (l : List RecipeRow) : List RecipeRow :=
  if 0 ≤ n then l.take n.toNat else l.take (l.length - (-n).toNat)

/-- Outcome of a Python handler call: a value, a DRF `ValidationError`,
or an exception that escapes the handler. -/
inductive PyOutcome (α : Type) where
  | ok (val : α)
  | validationError
  | uncaughtException
deriving DecidableEq, Repr

/-- `SubscriptionSerializer.get_recipes`: read `recipes_limit` from the
query string; a falsy value (absent or empty) leaves the list whole,
otherwise the list is sliced to `[: int(limit)]`, and a `ValueError`
from `int` escapes uncaught. -/
def get_recipes (recipes_limit : Option String) (recipes : List RecipeRow) :
    PyOutcome (List RecipeRow) :=
  match recipes_limit with
  | none => .ok recipes
  | some limit =>
    if limit == "" then
      .ok recipes
    else
      match pyInt limit with
      | some n => .ok (pySliceTo n recipes)
      | none => .uncaughtException

/-! # Theorems -/

theorem leChars_iff : ∀ as bs : List Char, leChars as bs = true ↔ ¬ List.Lex (· < ·) bs as := by
  intro as
  induction as with
  | nil =>
    intro bs
    simp [leChars, List.Lex.not_nil_right]
  | cons a as ih =>
    intro bs
    cases bs with
    | nil =>
      simp [leChars]
      exact List.Lex.nil
    | cons b bs =>
      rcases lt_trichotomy a b with h | h | h
      · simp [leChars, h, asymm h]
        intro hl
        cases hl with
        | rel h' => exact absurd h (asymm h')
        | cons h' => exact lt_irrefl _ h
      · subst h
        simp [leChars, lt_irrefl]
        rw [ih bs]
        constructor
        · intro hn hl
          cases hl with
          | rel h' => exact lt_irrefl _ h'
          | cons h' => exact hn h'
        · intro hn hl
          exact hn (List.Lex.cons hl)
      · simp [leChars, h, asymm h]
        exact List.Lex.rel h

/-- `strLe` is the linear order `≤` on `String`. -/
theorem strLe_iff (a b : String) : strLe a b = true ↔ a ≤ b := by
  rw [String.le_iff_toList_le, ← not_lt]
  exact leChars_iff a.data b.data

instance : IsTotal (String × Nat × String) rowLe :=
  ⟨fun a b => by
    rcases le_total a.1 b.1 with h | h
    · exact Or.inl ((strLe_iff _ _).mpr h)
    · exact Or.inr ((strLe_iff _ _).mpr h)⟩

instance : IsTrans (String × Nat × String) rowLe :=
  ⟨fun a b c hab hbc => by
    exact (strLe_iff _ _).mpr (le_trans ((strLe_iff _ _).mp hab) ((strLe_iff _ _).mp hbc))⟩

theorem download_rows_perm (s : Store) (u : Nat) :
    List.Perm (download_rows s u)
      ((((cartKeyedAmounts s u).map fun x => x.1).dedup).map (mkRow (cartKeyedAmounts s u))) :=
  List.perm_insertionSort rowLe _

theorem rowKey_mkRow (ls : List ((String × String) × Nat)) (k : String × String) :
    rowKey (mkRow ls k) = k := rfl

theorem map_rowKey_download_rows (s : Store) (u : Nat) :
    List.Perm ((download_rows s u).map rowKey)
      (((cartKeyedAmounts s u).map fun x => x.1).dedup) := by
  have h := (download_rows_perm s u).map rowKey
  rw [List.map_map] at h
  have h2 : (((cartKeyedAmounts s u).map fun x => x.1).dedup).map
      (rowKey ∘ mkRow (cartKeyedAmounts s u)) =
      ((cartKeyedAmounts s u).map fun x => x.1).dedup := List.map_id _
  rw [h2] at h
  exact h

/-- C1: for every user, the shopping-list aggregation groups the cart's
ingredient lines by `(ingredient name, measurement unit)`, sums the amounts
within each group, and sorts the groups by ingredient name ascending:
(i) the output is sorted by name; (ii) each `(name, unit)` group appears at
most once; (iii) each output row's total is the sum of the amounts of the
joined lines with that key; (iv) a key appears in the output exactly when
some joined line carries it; (v) an empty cart yields the header line only;
and the spec's example cart (flour:200 g; flour:100 g, sugar:50 g) yields
exactly `[("flour", 300, "g"), ("sugar", 50, "g")]`. -/
theorem C1_shopping_list_aggregation :
    (∀ (s : Store) (u : Nat),
      (download_rows s u).Pairwise (fun a b => a.1 ≤ b.1) ∧
      ((download_rows s u).map rowKey).Nodup ∧
      (∀ name total unit, (name, total, unit) ∈ download_rows s u →
        total = sumFor (cartKeyedAmounts s u) (name, unit)) ∧
      (∀ k, k ∈ (download_rows s u).map rowKey ↔
        k ∈ (cartKeyedAmounts s u).map fun x => x.1) ∧
      ((∀ e ∈ s.shopping_cart, e.user ≠ u) →
        download_shopping_cart s u = ["Список покупок\n"])) ∧
    download_rows exampleCartStore 1 = [("flour", 300, "g"), ("sugar", 50, "g")] := by
  constructor
  · intro s u
    refine ⟨?_, ?_, ?_, ?_, ?_⟩
    · exact (List.sorted_insertionSort rowLe _).imp fun h => (strLe_iff _ _).mp h
    · exact (map_rowKey_download_rows s u).nodup_iff.mpr (List.nodup_dedup _)
    · intro name total unit hmem
      have h := (download_rows_perm s u).mem_iff.mp hmem
      rcases List.mem_map.mp h with ⟨k, _, hk⟩
      have h1 : k.1 = name := congrArg (fun r => r.1) hk
      have h2 : sumFor (cartKeyedAmounts s u) k = total := congrArg (fun r => r.2.1) hk
      have h3 : k.2 = unit := congrArg (fun r => r.2.2) hk
      rw [← h2]
      congr 1
      rw [← h1, ← h3]
    · intro k
      rw [(map_rowKey_download_rows s u).mem_iff, List.mem_dedup]
    · intro h
      have hcl : cartLines s u = [] := by
        unfold cartLines
        rw [List.filter_eq_nil_iff]
        intro l hl
        simp only [List.any_eq_true, Bool.and_eq_true, beq_iff_eq, not_exists, not_and]
        intro e he hu
        exact absurd hu (h e he)
      simp [download_shopping_cart, download_rows, cartKeyedAmounts, hcl,
        List.insertionSort]
  · decide

/-- Witness for C1 at a concrete store: user 1's cart is empty and the
download is the header line only. -/
theorem C1_shopping_list_aggregation_witness :
    download_shopping_cart emptyCartStore 1 = ["Список покупок\n"] :=
  (C1_shopping_list_aggregation.1 emptyCartStore 1).2.2.2.2 (by decide)

/-- C2 counterexample: recipe 1 exists, user 1 has no favorite/cart edge
for it, and removing answers HTTP 400 (the handler's `'Рецепт не найден!'`
bad-request branch), not the 404 that `NotFoundError`
(`get_object_or_404`) produces elsewhere in the module. -/
theorem C2_remove_missing_edge_counterexample :
    delete_recipe [⟨1, 1, "A", "", 5, "img", "aaaaaa"⟩] [] 1 1 =
      (Resp.badRequest, []) ∧
    Resp.badRequest ≠ Resp.notFound := by
  constructor
  · decide
  · decide

/-- C2 (amended): for Favorite/ShoppingCart and Follow alike, removing a
non-existent edge of an existing target fails with HTTP 400 (not the 404
of `NotFoundError`) and leaves the relation unchanged; removing an
existing edge deletes exactly the matching rows and answers 204 with no
body. -/
theorem C2_remove_edge :
    (∀ (recipes : List RecipeRow) (edges : List CartEntry) (u pk : Nat),
      (recipes.any fun r => r.id == pk) = true →
      ((∀ e ∈ edges, ¬(e.user = u ∧ e.recipe = pk)) →
        delete_recipe recipes edges u pk = (.badRequest, edges)) ∧
      ((∃ e ∈ edges, e.user = u ∧ e.recipe = pk) →
        delete_recipe recipes edges u pk =
          (.noContent, edges.filter fun e => !(e.user == u && e.recipe == pk)))) ∧
    (∀ (users : List Nat) (follows : List FollowEdge) (u a : Nat),
      (users.any fun x => x == a) = true →
      ((∀ e ∈ follows, ¬(e.user = u ∧ e.author = a)) →
        unsubscribe_user users follows u a = (.badRequest, follows)) ∧
      ((∃ e ∈ follows, e.user = u ∧ e.author = a) →
        unsubscribe_user users follows u a =
          (.noContent, follows.filter fun e => !(e.user == u && e.author == a)))) := by
  constructor
  · intro recipes edges u pk hrec
    constructor
    · intro habs
      have hcnt : (edges.countP fun e => e.user == u && e.recipe == pk) = 0 := by
        rw [List.countP_eq_zero]
        intro e he
        simp only [Bool.and_eq_true, beq_iff_eq]
        exact habs e he
      simp [delete_recipe, hrec, hcnt]
    · intro hex
      have hcnt : (edges.countP fun e => e.user == u && e.recipe == pk) ≠ 0 := by
        rw [Ne, List.countP_eq_zero]
        intro hall
        rcases hex with ⟨e, he, h1, h2⟩
        exact hall e he (by simp [h1, h2])
      simp [delete_recipe, hrec, hcnt]
  · intro users follows u a husr
    constructor
    · intro habs
      have hany : (follows.any fun e => e.user == u && e.author == a) = false := by
        rw [List.any_eq_false]
        intro e he
        simp only [Bool.and_eq_true, beq_iff_eq]
        exact habs e he
      simp [unsubscribe_user, husr, hany]
    · intro hex
      have hany : (follows.any fun e => e.user == u && e.author == a) = true := by
        rw [List.any_eq_true]
        rcases hex with ⟨e, he, h1, h2⟩
        exact ⟨e, he, by simp [h1, h2]⟩
      simp [unsubscribe_user, husr, hany]

/-- Witness for C2 at concrete inputs: removing a present favorite edge
answers 204 and deletes it; removing an absent follow edge answers 400. -/
theorem C2_remove_edge_witness :
    delete_recipe [⟨1, 1, "A", "", 5, "img", "aaaaaa"⟩] [⟨1, 1⟩] 1 1 =
      (Resp.noContent, []) ∧
    unsubscribe_user [1, 2] [] 1 2 = (Resp.badRequest, []) := by
  constructor
  · exact (C2_remove_edge.1 [⟨1, 1, "A", "", 5, "img", "aaaaaa"⟩] [⟨1, 1⟩] 1 1
      (by decide)).2 ⟨⟨1, 1⟩, by decide, by decide, by decide⟩
  · exact (C2_remove_edge.2 [1, 2] [] 1 2 (by decide)).1 (by decide)

/-- C5: when the `(user, recipe)` edge already exists (exactly once, as
the uniqueness constraint guarantees), a second `add_recipe` answers the
conflict error (HTTP 400, `'Рецепт уже добавлен!'`) instead of silently
succeeding, and the relation still holds exactly one edge for the pair:
a first add on an absent pair answers 201 and yields count 1, and the
repeated add answers 400 leaving the edges untouched. -/
theorem C5_duplicate_add_conflicts :
    ∀ (recipes : List RecipeRow) (edges : List CartEntry) (u pk : Nat),
      (recipes.any fun r => r.id == pk) = true →
      (edges.countP fun e => e.user == u && e.recipe == pk) = 0 →
      (add_recipe recipes edges u pk).1 = .created ∧
      ((add_recipe recipes edges u pk).2.countP fun e =>
        e.user == u && e.recipe == pk) = 1 ∧
      add_recipe recipes (add_recipe recipes edges u pk).2 u pk =
        (.badRequest, (add_recipe recipes edges u pk).2) := by
  intro recipes edges u pk hrec hcnt
  have hany : (edges.any fun e => e.user == u && e.recipe == pk) = false := by
    rw [List.any_eq_false]
    intro e he
    have := List.countP_eq_zero.mp hcnt e he
    simpa using this
  have hadd : add_recipe recipes edges u pk = (.created, ⟨u, pk⟩ :: edges) := by
    simp [add_recipe, hany, hrec]
  refine ⟨by rw [hadd], ?_, ?_⟩
  · rw [hadd]
    simp only [List.countP_cons]
    simp [hcnt]
  · rw [hadd]
    simp [add_recipe]

/-- Witness for C5 at a concrete input. -/
theorem C5_duplicate_add_conflicts_witness :
    add_recipe [⟨1, 1, "A", "", 5, "img", "aaaaaa"⟩]
        (add_recipe [⟨1, 1, "A", "", 5, "img", "aaaaaa"⟩] [] 1 1).2 1 1 =
      (Resp.badRequest, (add_recipe [⟨1, 1, "A", "", 5, "img", "aaaaaa"⟩] [] 1 1).2) :=
  (C5_duplicate_add_conflicts [⟨1, 1, "A", "", 5, "img", "aaaaaa"⟩] [] 1 1
    (by decide) (by decide)).2.2

/-- Only edges with `user ≠ author` appear in states produced by
`subscribe_user`, and `unsubscribe_user` only removes edges. -/
theorem subscribe_user_snd_mem (fs : List FollowEdge) (u a : Nat) :
    ∀ e ∈ (subscribe_user fs u a).2, e ∈ fs ∨ (e = ⟨u, a⟩ ∧ u ≠ a) := by
  intro e he
  by_cases hua : u = a
  · subst hua
    simp [subscribe_user] at he
    exact Or.inl he
  · simp only [subscribe_user, beq_iff_eq, if_neg hua] at he
    by_cases hany : (fs.any fun e => e.user == u && e.author == a) = true
    · rw [if_pos hany] at he
      exact Or.inl he
    · rw [if_neg hany] at he
      rcases List.mem_cons.mp he with h | h
      · exact Or.inr ⟨h, hua⟩
      · exact Or.inl h

theorem unsubscribe_user_snd_mem (users : List Nat) (fs : List FollowEdge) (u a : Nat) :
    ∀ e ∈ (unsubscribe_user users fs u a).2, e ∈ fs := by
  intro e he
  unfold unsubscribe_user at he
  split at he
  · split at he
    · exact (List.mem_filter.mp he).1
    · exact he
  · exact he

/-- C6: self-subscription always fails with the 400 `ValidationError`
response and changes nothing, whatever the rest of the state; hence in
every `Follow` state reachable through the subscription handlers, no
edge has its follower equal to its followed user (the invariant the
`no_self_follow` check constraint backs at the store level). -/
theorem C6_no_self_follow :
    (∀ (fs : List FollowEdge) (u : Nat),
      subscribe_user fs u u = (.badRequest, fs)) ∧
    (∀ fs, FollowReachable fs → ∀ e ∈ fs, e.user ≠ e.author) := by
  constructor
  · intro fs u
    simp [subscribe_user]
  · intro fs hr
    induction hr with
    | init => intro e he; cases he
    | subscribe u a fs' _ ih =>
      intro e he
      rcases subscribe_user_snd_mem fs' u a e he with h | ⟨hea, hua⟩
      · exact ih e h
      · subst hea
        exact hua
    | unsubscribe users u a fs' _ ih =>
      intro e he
      exact ih e (unsubscribe_user_snd_mem users fs' u a e he)

/-- Witness for C6 at a concrete input: a self-subscribe attempt on the
empty table, and the invariant at a concretely reached state. -/
theorem C6_no_self_follow_witness :
    subscribe_user [] 3 3 = (Resp.badRequest, []) ∧
    ∀ e ∈ (subscribe_user [] 1 2).2, e.user ≠ e.author :=
  ⟨C6_no_self_follow.1 [] 3,
   C6_no_self_follow.2 (subscribe_user [] 1 2).2
     (FollowReachable.subscribe 1 2 [] FollowReachable.init)⟩

/-- A list whose length equals its deduplicated length has no
duplicates (`len(ids) == len(set(ids))`). -/
theorem nodup_of_length_eq_dedup {α : Type} [DecidableEq α] (l : List α)
    (h : l.length = l.dedup.length) : l.Nodup :=
  List.dedup_eq_self.mp ((l.dedup_sublist).eq_of_length h.symm)

/-- Inversion of the create-payload validation: success returns the
payload itself and implies every checked property. -/
theorem validateRecipePayload_ok_inv (p q : RecipePayload)
    (h : validateRecipePayload p = .ok q) :
    q = p ∧ p.ingredients ≠ [] ∧ p.tags ≠ [] ∧
      (p.ingredients.map fun i => i.id).Nodup ∧ p.tags.Nodup ∧ p.image ≠ "" := by
  have f1 : p.ingredients.length = ((p.ingredients.map fun i => i.id).dedup).length := by
    by_contra h1
    simp [validateRecipePayload, validate_ingredients, h1] at h
  have f2 : p.tags.length = p.tags.dedup.length := by
    by_contra h2
    simp [validateRecipePayload, validate_ingredients, validate_tags, f1, h2] at h
  have f3 : p.image ≠ "" := by
    intro h3
    simp [validateRecipePayload, validate_ingredients, validate_tags,
      validate_image, f1, f2, h3] at h
  have f4 : ¬(p.ingredients = []) := by
    intro h4
    simp [validateRecipePayload, validate_ingredients, validate_tags,
      validate_image, f1, f2, f3, h4] at h
  have f5 : ¬(p.tags = []) := by
    intro h5
    simp [validateRecipePayload, validate_ingredients, validate_tags,
      validate_image, f1, f2, f3, f4, h5] at h
  have hq : q = p := by
    simp [validateRecipePayload, validate_ingredients, validate_tags,
      validate_image, f1, f2, f3, f4, f5] at h
    exact h.symm
  refine ⟨hq, f4, f5, ?_, nodup_of_length_eq_dedup _ f2, f3⟩
  apply nodup_of_length_eq_dedup
  rw [List.length_map]
  exact f1

/-- C3: a create payload with an empty tag list, an empty ingredient
list, or two references to the same ingredient is rejected with a
`ValidationError` and nothing is persisted: the store after the request
equals the store before it. -/
theorem C3_create_validation :
    ∀ (s : Store) (author : Nat) (p : RecipePayload) (newId : Nat) (code : String),
      (p.tags = [] ∨ p.ingredients = [] ∨ ¬(p.ingredients.map fun i => i.id).Nodup) →
      (∃ e, recipe_create s author p newId code = .error e) ∧
      runCreate s author p newId code = s := by
  intro s author p newId code hbad
  cases h : validateRecipePayload p with
  | error e =>
    exact ⟨⟨e, by simp [recipe_create, h]⟩, by simp [runCreate, recipe_create, h]⟩
  | ok q =>
    rcases validateRecipePayload_ok_inv p q h with ⟨_, hi, ht, hnd, _, _⟩
    rcases hbad with hb | hb | hb
    · exact absurd hb ht
    · exact absurd hb hi
    · exact absurd hnd hb

/-- Witness for C3 at a concrete input: duplicated ingredient references. -/
theorem C3_create_validation_witness :
    runCreate emptyCartStore 1
      ⟨[1], [⟨1, 2⟩, ⟨1, 3⟩], "A", "t", "img", 5⟩ 7 "ccc" = emptyCartStore :=
  (C3_create_validation emptyCartStore 1
    ⟨[1], [⟨1, 2⟩, ⟨1, 3⟩], "A", "t", "img", 5⟩ 7 "ccc"
    (Or.inr (Or.inr (by decide)))).2

/-- Inversion of the update-payload validation: success implies both
collections were supplied non-empty. -/
theorem validateUpdatePayload_ok_inv (p q : UpdatePayload)
    (h : validateUpdatePayload p = .ok q) :
    (p.ingredients.getD []).isEmpty = false ∧ (p.tags.getD []).isEmpty = false := by
  unfold validateUpdatePayload at h
  split at h
  · exact absurd h (by simp)
  · split at h
    · exact absurd h (by simp)
    · split at h
      · exact absurd h (by simp)
      · split at h
        · exact absurd h (by simp)
        · split at h
          · exact absurd h (by simp)
          · rename_i hie hte
            exact ⟨by simpa using hie, by simpa using hte⟩

/-- C9: every update payload must supply a non-empty ingredient list and
a non-empty tag list; a payload omitting either collection or supplying
it empty — in particular a scalar-only partial update — fails with a
`ValidationError` and leaves the store unchanged. -/
theorem C9_update_requires_collections :
    ∀ (s : Store) (rid : Nat) (p : UpdatePayload),
      (p.ingredients = none ∨ p.ingredients = some [] ∨
       p.tags = none ∨ p.tags = some []) →
      (∃ e, recipe_update s rid p = .error e) ∧ runUpdate s rid p = s := by
  intro s rid p hbad
  cases h : validateUpdatePayload p with
  | error e =>
    exact ⟨⟨e, by simp [recipe_update, h]⟩, by simp [runUpdate, recipe_update, h]⟩
  | ok q =>
    rcases validateUpdatePayload_ok_inv p q h with ⟨hi, ht⟩
    rcases hbad with hb | hb | hb | hb <;> simp [hb] at hi ht

/-- Witness for C9 at a concrete input: a scalar-only partial update
(name only, both collections omitted) changes nothing. -/
theorem C9_update_requires_collections_witness :
    runUpdate emptyCartStore 1 ⟨none, none, some "B", none, none, none⟩ =
      emptyCartStore :=
  (C9_update_requires_collections emptyCartStore 1
    ⟨none, none, some "B", none, none, none⟩ (Or.inl rfl)).2

/-- C7: creating a valid recipe payload and reading it back returns all
scalar fields (name, text, cooking_time, image reference) as supplied,
the exact supplied tag list and the exact supplied `(ingredient, amount)`
line list (returned in the stored order, hence in particular equal as
unordered collections). -/
theorem C7_create_read_roundtrip :
    ∀ (s : Store) (author : Nat) (p : RecipePayload) (newId : Nat) (code : String),
      validateRecipePayload p = .ok p →
      (∀ t ∈ s.recipe_tags, t.recipe ≠ newId) →
      (∀ l ∈ s.ingredient_in_recipe, l.recipe ≠ newId) →
      ∃ s', recipe_create s author p newId code = .ok s' ∧
        readRecipe s' newId =
          some { name := p.name, text := p.text, cooking_time := p.cooking_time,
                 image := p.image, tags := p.tags,
                 ingredients := p.ingredients.map fun i => (i.id, i.amount) } := by
  intro s author p newId code hv htags hlines
  refine ⟨create_tags_ingredients
      { s with recipes :=
          ⟨newId, author, p.name, p.text, p.cooking_time, p.image, code⟩ :: s.recipes }
      newId p.tags p.ingredients, by simp [recipe_create, hv], ?_⟩
  unfold readRecipe create_tags_ingredients
  have hfind : (List.find? (fun r => r.id == newId)
      (⟨newId, author, p.name, p.text, p.cooking_time, p.image, code⟩ :: s.recipes)) =
      some ⟨newId, author, p.name, p.text, p.cooking_time, p.image, code⟩ :=
    List.find?_cons_of_pos _ (by simp)
  simp only [hfind]
  have htagfilter :
      ((s.recipe_tags.filter fun t => !(t.recipe == newId)) ++
          p.tags.map fun t => (⟨newId, t⟩ : RecipeTag)).filter
        (fun t => t.recipe == newId) = p.tags.map fun t => (⟨newId, t⟩ : RecipeTag) := by
    rw [List.filter_append]
    have h1 : (s.recipe_tags.filter fun t => !(t.recipe == newId)).filter
        (fun t => t.recipe == newId) = [] := by
      rw [List.filter_eq_nil_iff]
      intro t ht
      exact by simpa using htags t (List.mem_of_mem_filter ht)
    have h2 : (p.tags.map fun t => (⟨newId, t⟩ : RecipeTag)).filter
        (fun t => t.recipe == newId) = p.tags.map fun t => (⟨newId, t⟩ : RecipeTag) := by
      rw [List.filter_eq_self]
      intro t ht
      rcases List.mem_map.mp ht with ⟨x, _, hx⟩
      subst hx
      simp
    rw [h1, h2, List.nil_append]
  have hlinefilter :
      (s.ingredient_in_recipe ++
          p.ingredients.map fun i => (⟨newId, i.id, i.amount⟩ : IngredientInRecipe)).filter
        (fun l => l.recipe == newId) =
        p.ingredients.map fun i => (⟨newId, i.id, i.amount⟩ : IngredientInRecipe) := by
    rw [List.filter_append]
    have h1 : s.ingredient_in_recipe.filter (fun l => l.recipe == newId) = [] := by
      rw [List.filter_eq_nil_iff]
      intro l hl
      exact by simpa using hlines l hl
    have h2 : (p.ingredients.map fun i => (⟨newId, i.id, i.amount⟩ : IngredientInRecipe)).filter
        (fun l => l.recipe == newId) =
        p.ingredients.map fun i => (⟨newId, i.id, i.amount⟩ : IngredientInRecipe) := by
      rw [List.filter_eq_self]
      intro l hl
      rcases List.mem_map.mp hl with ⟨x, _, hx⟩
      subst hx
      simp
    rw [h1, h2, List.nil_append]
  simp only [htagfilter, hlinefilter, List.map_map]
  simp [Function.comp]
  exact List.map_id _

/-- Witness for C7 at a concrete input. -/
theorem C7_create_read_roundtrip_witness :
    ∃ s', recipe_create emptyCartStore 1 ⟨[4], [⟨2, 30⟩], "Soup", "boil", "img", 15⟩ 7 "ccc" =
        .ok s' ∧
      readRecipe s' 7 = some ⟨"Soup", "boil", 15, "img", [4], [(2, 30)]⟩ :=
  C7_create_read_roundtrip emptyCartStore 1 ⟨[4], [⟨2, 30⟩], "Soup", "boil", "img", 15⟩ 7 "ccc"
    rfl (by decide) (by decide)

theorem characters_length : characters.length = 36 := by decide

theorem characters_nodup : characters.Nodup := by decide

theorem drawString_length (d : Draw) : (drawString d).length = MAX_CODE_LENGTH := by
  simp [drawString, String.length]

theorem drawString_alphabet (d : Draw) : ∀ ch ∈ (drawString d).data, ch ∈ characters := by
  intro ch hch
  simp only [drawString] at hch
  rcases List.mem_map.mp hch with ⟨i, _, hi⟩
  subst hi
  have hlt : (d i).val < characters.length := by
    rw [characters_length]
    exact (d i).isLt
  rw [List.getD_eq_getElem _ _ hlt]
  exact List.getElem_mem hlt

theorem drawString_injective : Function.Injective drawString := by
  intro d d' h
  have hdata : (List.finRange MAX_CODE_LENGTH).map (fun i => characters.getD (d i).val 'a') =
      (List.finRange MAX_CODE_LENGTH).map (fun i => characters.getD (d' i).val 'a') :=
    congrArg String.data h
  funext i
  have hi := List.map_inj_left.mp hdata i (List.mem_finRange i)
  have hlt : (d i).val < characters.length := by
    rw [characters_length]
    exact (d i).isLt
  have hlt' : (d' i).val < characters.length := by
    rw [characters_length]
    exact (d' i).isLt
  rw [List.getD_eq_getElem _ _ hlt, List.getD_eq_getElem _ _ hlt'] at hi
  exact Fin.ext ((List.Nodup.getElem_inj_iff characters_nodup).mp hi)

/-- A successful run of the generation loop returns a fresh code, namely
the first draw that does not collide with an existing code. -/
theorem genAux_some_spec (existing : List String) (ρ : Nat → Draw) :
    ∀ (fuel i : Nat) (c : String), genAux existing ρ i fuel = some c →
      c ∉ existing ∧ ∃ j, i ≤ j ∧ c = drawString (ρ j) ∧
        ∀ k, i ≤ k → k < j → drawString (ρ k) ∈ existing := by
  intro fuel
  induction fuel with
  | zero => intro i c h; cases h
  | succ n ih =>
    intro i c h
    by_cases hany : (existing.any fun s => s == drawString (ρ i)) = true
    · simp only [genAux, if_pos hany] at h
      rcases ih (i + 1) c h with ⟨hnot, j, hij, hcj, hall⟩
      refine ⟨hnot, j, by omega, hcj, ?_⟩
      intro k hk1 hk2
      rcases Nat.eq_or_lt_of_le hk1 with hk | hk
      · rcases List.any_eq_true.mp hany with ⟨s, hs, hbeq⟩
        rw [show s = drawString (ρ i) from by simpa using hbeq] at hs
        rw [← hk]
        exact hs
      · exact hall k hk hk2
    · simp only [genAux, if_neg hany] at h
      have hc : c = drawString (ρ i) := (Option.some.inj h).symm
      subst hc
      refine ⟨?_, i, le_rfl, rfl, fun k hk1 hk2 => absurd (lt_of_le_of_lt hk1 hk2) (lt_irrefl i)⟩
      intro hmem
      exact hany (List.any_eq_true.mpr ⟨_, hmem, by simp⟩)

/-- If some draw at or after position `i` is fresh, the loop terminates
from position `i` with enough fuel. -/
theorem genAux_term (existing : List String) (ρ : Nat → Draw) :
    ∀ k i, drawString (ρ (i + k)) ∉ existing →
      ∃ fuel c, genAux existing ρ i fuel = some c ∧ c ∉ existing := by
  intro k
  induction k with
  | zero =>
    intro i h
    rw [Nat.add_zero] at h
    refine ⟨1, drawString (ρ i), ?_, h⟩
    have hany : (existing.any fun s => s == drawString (ρ i)) = false := by
      rw [List.any_eq_false]
      intro s hs
      simp only [beq_iff_eq]
      intro he
      exact h (he ▸ hs)
    simp [genAux, hany]
  | succ n ih =>
    intro i h
    by_cases hin : drawString (ρ i) ∈ existing
    · have h' : drawString (ρ ((i + 1) + n)) ∉ existing := by
        rw [show (i + 1) + n = i + (n + 1) by omega]
        exact h
      rcases ih (i + 1) h' with ⟨fuel, c, hc, hcnot⟩
      have hany : (existing.any fun s => s == drawString (ρ i)) = true :=
        List.any_eq_true.mpr ⟨_, hin, by simp⟩
      exact ⟨fuel + 1, c, by simp only [genAux, if_pos hany]; exact hc, hcnot⟩
    · refine ⟨1, drawString (ρ i), ?_, hin⟩
      have hany : (existing.any fun s => s == drawString (ρ i)) = false := by
        rw [List.any_eq_false]
        intro s hs
        simp only [beq_iff_eq]
        intro he
        exact hin (he ▸ hs)
      simp [genAux, hany]

/-- As long as fewer than `36 ^ MAX_CODE_LENGTH` distinct codes are
assigned, some draw yields a fresh code. -/
theorem fresh_draw_exists (existing : List String)
    (h : existing.dedup.length < 36 ^ MAX_CODE_LENGTH) :
    ∃ d : Draw, drawString d ∉ existing := by
  by_contra hno
  push_neg at hno
  have hinj : Function.Injective
      (fun d : Draw => (⟨drawString d, List.mem_toFinset.mpr (hno d)⟩ :
        {s : String // s ∈ existing.toFinset})) := by
    intro d d' hdd
    exact drawString_injective (congrArg Subtype.val hdd)
  have hcard := Fintype.card_le_of_injective _ hinj
  rw [Fintype.card_coe, List.card_toFinset] at hcard
  have hdraw : Fintype.card Draw = 36 ^ MAX_CODE_LENGTH := by
    rw [Fintype.card_fun]
    simp
  omega

/-- Sequential creations preserve distinctness and the code shape. -/
theorem createCodes_spec (ρs : Nat → Nat → Draw) (fuel : Nat) :
    ∀ (n : Nat) (existing out : List String), existing.Nodup →
      createCodes ρs fuel n existing = some out →
      out.Nodup ∧ ∃ news, out = news ++ existing ∧
        ∀ c ∈ news, c.length = MAX_CODE_LENGTH ∧ ∀ ch ∈ c.data, ch ∈ characters := by
  intro n
  induction n with
  | zero =>
    intro existing out hnd h
    have he : existing = out := Option.some.inj h
    subst he
    exact ⟨hnd, [], rfl, by simp⟩
  | succ n ih =>
    intro existing out hnd h
    simp only [createCodes] at h
    cases hg : generate_short_code existing (ρs n) fuel with
    | none => rw [hg] at h; cases h
    | some c =>
      rw [hg] at h
      rcases genAux_some_spec existing (ρs n) fuel 0 c hg with ⟨hcnot, j, _, hcj, _⟩
      have hlen : c.length = MAX_CODE_LENGTH := hcj ▸ drawString_length _
      have halpha : ∀ ch ∈ c.data, ch ∈ characters := hcj ▸ drawString_alphabet _
      rcases ih (c :: existing) out (List.nodup_cons.mpr ⟨hcnot, hnd⟩) h with
        ⟨hond, news, hout, hprop⟩
      refine ⟨hond, news ++ [c], by rw [hout]; simp, ?_⟩
      intro x hx
      rcases List.mem_append.mp hx with hx | hx
      · exact hprop x hx
      · rw [List.mem_singleton.mp hx]
        exact ⟨hlen, halpha⟩

/-- C4: a successfully generated short code is always fresh (checked
against all existing codes, redrawn on collision: it is the first
non-colliding draw), has exactly the configured length, and uses only
the lowercase-letter-plus-digit alphabet; hence over any sequence of
recipe creations that all succeed, the assigned codes are pairwise
distinct and all of the configured shape. -/
theorem C4_short_code_generation :
    (∀ (existing : List String) (ρ : Nat → Draw) (fuel : Nat) (c : String),
      generate_short_code existing ρ fuel = some c →
      c ∉ existing ∧ c.length = MAX_CODE_LENGTH ∧ (∀ ch ∈ c.data, ch ∈ characters) ∧
      ∃ j, c = drawString (ρ j) ∧ ∀ i < j, drawString (ρ i) ∈ existing) ∧
    (∀ (ρs : Nat → Nat → Draw) (fuel n : Nat) (existing out : List String),
      existing.Nodup → createCodes ρs fuel n existing = some out →
      out.Nodup ∧ ∃ news, out = news ++ existing ∧
        ∀ c ∈ news, c.length = MAX_CODE_LENGTH ∧ ∀ ch ∈ c.data, ch ∈ characters) := by
  constructor
  · intro existing ρ fuel c h
    rcases genAux_some_spec existing ρ fuel 0 c h with ⟨hnot, j, _, hcj, hall⟩
    exact ⟨hnot, hcj ▸ drawString_length _, hcj ▸ drawString_alphabet _,
      j, hcj, fun i hi => hall i (Nat.zero_le i) hi⟩
  · intro ρs fuel n existing out hnd h
    exact createCodes_spec ρs fuel n existing out hnd h

/-- Witness for C4: two sequential creations from the empty store with a
concrete oracle produce the distinct codes `aaaaaa` and `bbbbbb`. -/
theorem C4_short_code_generation_witness :
    (["aaaaaa", "bbbbbb"] : List String).Nodup ∧
    ∃ news, (["aaaaaa", "bbbbbb"] : List String) = news ++ ([] : List String) ∧
      ∀ c ∈ news, c.length = MAX_CODE_LENGTH ∧ ∀ ch ∈ c.data, ch ∈ characters :=
  C4_short_code_generation.2 exOracle 1 2 [] ["aaaaaa", "bbbbbb"] (by decide) (by decide)

/-- The all-`'a'` draw stream never escapes the loop once `aaaaaa` is
assigned. -/
theorem genAux_allA_none : ∀ fuel i, genAux ["aaaaaa"] (fun _ => allA) i fuel = none := by
  intro fuel
  induction fuel with
  | zero => intro i; rfl
  | succ n ih =>
    intro i
    have hany : ((["aaaaaa"] : List String).any fun s => s == drawString allA) = true := by
      decide
    simp only [genAux, if_pos hany]
    exact ih (i + 1)

/-- C8 counterexample: with code `aaaaaa` assigned (far from exhausting
the code space), the draw sequence that always redraws `aaaaaa` makes the
loop run forever — the loop does not terminate for every store state
below exhaustion. -/
theorem C8_unbounded_retry_counterexample :
    ¬ (∀ ρ : Nat → Draw,
        (["aaaaaa"] : List String).dedup.length < 36 ^ MAX_CODE_LENGTH →
        ∃ fuel c, generate_short_code ["aaaaaa"] ρ fuel = some c ∧
          c ∉ (["aaaaaa"] : List String)) := by
  intro h
  rcases h (fun _ => allA) (by decide) with ⟨fuel, c, hc, _⟩
  rw [generate_short_code, genAux_allA_none fuel 0] at hc
  cases hc

/-- C8 (amended): whenever the assigned codes do not exhaust the code
space, a fresh draw exists, and the loop terminates with a fresh code
for every draw sequence that eventually produces one — but (see the
counterexample) not for every draw sequence. -/
theorem C8_loop_termination :
    (∀ existing : List String, existing.dedup.length < 36 ^ MAX_CODE_LENGTH →
      ∃ d : Draw, drawString d ∉ existing) ∧
    (∀ (existing : List String) (ρ : Nat → Draw),
      (∃ i, drawString (ρ i) ∉ existing) →
      ∃ fuel c, generate_short_code existing ρ fuel = some c ∧ c ∉ existing) := by
  constructor
  · exact fresh_draw_exists
  · intro existing ρ ⟨i, hi⟩
    have h0 : drawString (ρ (0 + i)) ∉ existing := by
      rw [Nat.zero_add]
      exact hi
    exact genAux_term existing ρ i 0 h0

/-- Witness for C8 at concrete inputs: the store holding only `aaaaaa`
does not exhaust the space, and the all-`'b'` stream terminates the loop. -/
theorem C8_loop_termination_witness :
    (∃ d : Draw, drawString d ∉ (["aaaaaa"] : List String)) ∧
    ∃ fuel c, generate_short_code ["aaaaaa"] (fun _ => allB) fuel = some c ∧
      c ∉ (["aaaaaa"] : List String) :=
  ⟨C8_loop_termination.1 ["aaaaaa"] (by decide),
   C8_loop_termination.2 ["aaaaaa"] (fun _ => allB) ⟨0, by decide⟩⟩

/-- C10: in the subscriptions listing, a `recipes_limit` value parsing to
a non-negative integer `n` truncates the author's recipe list to its
first `n` elements; any non-empty value that is not a valid integer
literal makes `int(limit)` raise an uncaught `ValueError` (not a
`ValidationError`), so the handler is not total over its public input. -/
theorem C10_recipes_limit :
    (∀ (limit : String) (recipes : List RecipeRow) (n : Int),
      pyInt limit = some n → 0 ≤ n →
      get_recipes (some limit) recipes = .ok (recipes.take n.toNat)) ∧
    (∀ (limit : String) (recipes : List RecipeRow),
      limit ≠ "" → pyInt limit = none →
      get_recipes (some limit) recipes = .uncaughtException) := by
  constructor
  · intro limit recipes n hp hn
    have hne : (limit == "") = false := by
      rw [beq_eq_false_iff_ne]
      intro hlim
      rw [hlim] at hp
      rw [show pyInt "" = none from rfl] at hp
      cases hp
    simp [get_recipes, hne, hp, pySliceTo, hn]
  · intro limit recipes hne hp
    have hbe : (limit == "") = false := beq_eq_false_iff_ne.mpr hne
    simp [get_recipes, hbe, hp]

/-- Witness for C10 at concrete inputs: `recipes_limit=2` truncates to
the first two recipes, `recipes_limit=abc` escapes as an exception. -/
theorem C10_recipes_limit_witness :
    get_recipes (some "2") exampleCartStore.recipes =
      .ok (exampleCartStore.recipes.take (Int.toNat 2)) ∧
    get_recipes (some "abc") exampleCartStore.recipes = .uncaughtException :=
  ⟨C10_recipes_limit.1 "2" exampleCartStore.recipes 2 (by decide) (by decide),
   C10_recipes_limit.2 "abc" exampleCartStore.recipes (by decide) (by decide)⟩

end Foodgram
